import Mathlib

/-!
# redis-dump-go: the command-line entry point (`main.go`)

A shallow embedding of `main.go`: the progress renderer (`progressLogger`,
`newProgressLogger`, `drawProgress`) and the entry point `realMain`.

Conventions of the embedding.

* A Go `uint8` is a `Nat` below 256, a Go `int` is an `Int`; the conversion
  `uint8(x)` is `x % 256`.
* A Go `string` that is only compared, printed or passed on is a Lean `String`;
  the credential, which `url.QueryEscape` rewrites byte by byte, is a list of
  bytes (`List Nat`).
* An `io.Writer` is the list of chunks written to it, one chunk per `Fprintf`.
* The map `map[uint8]int` is an association list; `lookup` is the comma-ok
  read, `mapSet` the assignment `m[k] = v`, `length` is `len`.
-/

namespace RedisDumpGo

/-! ## The progress renderer -/

/-- The assignment `m[k] = v` on `map[uint8]int`: overwrite the entry of `k`, or add one. -/
def mapSet : List (Nat × Int) → Nat → Int → List (Nat × Int)
  | [], k, v => [(k, v)]
  | (k', v') :: rest, k, v =>
    if k' = k then (k, v) :: rest else (k', v') :: mapSet rest k v

/-- The type `progressLogger`: the last count seen for each database. -/
structure progressLogger where
  stats : List (Nat × Int)
deriving DecidableEq, Repr

/-- The constructor `newProgressLogger`: an empty `stats` map. -/
def newProgressLogger : progressLogger :=
  { stats := [] }

/-- The text produced by the format `"\rDatabase %d: %d element dumped"`. -/
def statusLine (db : Nat) (nDumped : Int) : String :=
  "\rDatabase " ++ toString db ++ ": " ++ toString nDumped ++ " element dumped"

/-- The method `drawProgress`: returns the updated logger and the chunks written to `to`,
in order. -/
def progressLogger.drawProgress (p : progressLogger) (db : Nat) (nDumped : Int) :
    progressLogger × List String :=
  let w₁ : List String :=
    if (p.stats.lookup db).isNone ∧ p.stats.length > 0 then ["\n"] else []
  let p' : progressLogger := { stats := mapSet p.stats db nDumped }
  if nDumped = 0 then (p', w₁)
  else (p', w₁ ++ [statusLine db nDumped])

/-- Modelled from the spec: `redisdump.ProgressNotification`, declared in `pkg/redisdump`:
a database index (`uint8`) and the cumulative count of keys dumped there (`int`). -/
structure ProgressNotification where
  Db : Nat
  Done : Int
deriving DecidableEq, Repr

/-- The notifications of a sequence drawn one after the other on one logger: the chunks
each call of `drawProgress` writes, call by call. -/
def drawEach : progressLogger → List ProgressNotification → List (List String)
  | _, [] => []
  | p, n :: rest =>
    (p.drawProgress n.Db n.Done).2 :: drawEach (p.drawProgress n.Db n.Done).1 rest

/-- Number of newline characters in a list of chunks written to a writer. -/
def newlineCount (chunks : List String) : Nat :=
  (chunks.map fun s => s.data.count (Char.ofNat 10)).sum

/-! ## Collaborators of `realMain` -/

/-- Modelled from the spec: the type `config.Config` is declared in `pkg/config`, which is not
part of `main.go`; the fields are the ones `realMain` reads, `Db` being a signed Go `int`
(negative selects all databases). -/
structure Config where
  Host : String
  Port : Int
  Db : Int
  Filter : String
  Noscan : Bool
  BatchSize : Int
  NWorkers : Int
  WithTTL : Bool
  Output : String
  Silent : Bool
  Tls : Bool
  CaCert : String
  Cert : String
  Key : String
  Help : Bool
deriving DecidableEq, Repr

/-- The two serializers `realMain` can select, `redisdump.RESPSerializer` and
`redisdump.RedisCmdSerializer`, by name. -/
inductive Serializer where
  | RESPSerializer
  | RedisCmdSerializer
deriving DecidableEq, Repr

/-- The value `redisdump.NewTlsHandler(caCert, cert, key)`, by its three arguments. -/
structure TlsHandler where
  caCertPath : String
  certPath : String
  keyPath : String
deriving DecidableEq, Repr

/-- The constructor `redisdump.NewTlsHandler`. -/
def NewTlsHandler (caCert cert key : String) : TlsHandler :=
  { caCertPath := caCert, certPath := cert, keyPath := key }

/-- The arguments `DumpServer` and `DumpDB` have in common, in the order of the call; the
logger and the notification channel are fixed by `realMain` and carry no choice. -/
structure DumpArgs where
  host : String
  port : Int
  redisPassword : List Nat
  tlsHandler : Option TlsHandler
  filter : String
  nWorkers : Int
  withTTL : Bool
  batchSize : Int
  noscan : Bool
  serializer : Serializer
deriving DecidableEq, Repr

/-- A call into the dump engine: `redisdump.DumpServer(...)` or `redisdump.DumpDB(..., db, ...)`. -/
inductive DumpCall where
  | DumpServer (args : DumpArgs)
  | DumpDB (db : Nat) (args : DumpArgs)
deriving DecidableEq, Repr

/-- The common arguments of a dump call. -/
def DumpCall.args : DumpCall → DumpArgs
  | .DumpServer a => a
  | .DumpDB _ a => a

/-- What a dump call does as far as `realMain` sees it: the notifications it sends on the
channel, in order, and the error it returns (`none` for `nil`, else the text of `Error()`). -/
structure DumpResult where
  notifs : List ProgressNotification
  err : Option String
deriving DecidableEq, Repr

/-- Everything `realMain` reads from outside `main.go`: the three results of
`config.FromFlags(os.Args[0], os.Args[1:])`, the value of `os.Getenv("REDISDUMPGO_AUTH")`
(empty when the variable is unset) and the behaviour of the dump engine. -/
structure Env where
  c : Config
  outBuf : String
  err : Option String
  auth : List Nat
  dump : DumpCall → DumpResult

/-! ## `url.QueryEscape` -/

/-- The function `shouldEscape(c, encodeQueryComponent)` of `net/url`: letters, digits and
the four marks `-`, `_`, `.`, `~` are kept, every other byte is escaped. -/
def shouldEscape (c : Nat) : Bool :=
  if (97 ≤ c ∧ c ≤ 122) ∨ (65 ≤ c ∧ c ≤ 90) ∨ (48 ≤ c ∧ c ≤ 57) then false
  else if c = 45 ∨ c = 95 ∨ c = 46 ∨ c = 126 then false
  else true

/-- The table `upperhex = "0123456789ABCDEF"` of `net/url`, read at index `i`. -/
def upperhex (i : Nat) : Nat :=
  if i < 10 then 48 + i else 55 + i

/-- What `url.QueryEscape` writes for one byte: `+` for a space, `%XX` for an escaped byte
(`c>>4` and `c&15` index `upperhex`), the byte itself otherwise. -/
def escapeByte (c : Nat) : List Nat :=
  if c = 32 then [43]
  else if shouldEscape c then [37, upperhex (c / 16), upperhex (c % 16)]
  else [c]

/-- The function `url.QueryEscape` on the bytes of a string. -/
def QueryEscape : List Nat → List Nat
  | [] => []
  | c :: s => escapeByte c ++ QueryEscape s

/-! ## The entry point -/

/-- The conversion `uint8(x)` of a Go `int`. -/
def toUint8 (x : Int) : Nat :=
  (x % 256).toNat

/-- What `realMain` does that is visible from outside, in program order. -/
inductive Event where
  | newTlsHandler (h : TlsHandler)
  | startConsumer
  | dump (call : DumpCall)
  | closeNotifs
  | waitConsumer
deriving DecidableEq, Repr

/-- How `realMain` ends: `return code` (which `main` hands to `os.Exit`), or `log.Fatalf`,
which writes its message, after the time stamp of the logger, to standard error and exits
with status 1 without running deferred calls. The line `log.Fatalf` writes is recorded here,
as `msg`, and not among the chunks of `Run.stderr`. -/
inductive Outcome where
  | exit (code : Nat)
  | fatal (msg : String)
deriving DecidableEq, Repr

/-- One run of `realMain`: how it ended, its events, what the main routine wrote with
`fmt.Fprint*` to standard output and to standard error (one chunk per write), and what the
progress consumer wrote to standard error. -/
structure Run where
  outcome : Outcome
  events : List Event
  stdout : List String
  stderr : List String
  progress : List String
deriving DecidableEq, Repr

/-- The consumer goroutine of `realMain`: `for n := range progressNotifs`, drawing each
notification on `pl` unless `Silent` is set. Returns the chunks written to standard error. -/
def consumer (silent : Bool) : progressLogger → List ProgressNotification → List String
  | _, [] => []
  | pl, n :: rest =>
    if !silent then
      (pl.drawProgress n.Db n.Done).2 ++ consumer silent (pl.drawProgress n.Db n.Done).1 rest
    else consumer silent pl rest

/-- The `switch c.Output`: the serializer, or `none` for the `default` branch. -/
def selectSerializer (output : String) : Option Serializer :=
  if output = "resp" then some Serializer.RESPSerializer
  else if output = "commands" then some Serializer.RedisCmdSerializer
  else none

/-- The function `realMain`. -/
def realMain (env : Env) : Run :=
  let c := env.c
  if env.outBuf ≠ "" then
    if c.Help then
      { outcome := .exit 0, events := [], stdout := [env.outBuf ++ "\n"], stderr := [],
        progress := [] }
    else
      { outcome := .exit 1, events := [], stdout := [], stderr := [env.outBuf ++ "\n"],
        progress := [] }
  else
    match env.err with
    | some e =>
      { outcome := .exit 1, events := [], stdout := [],
        stderr := ["failed parsing command line: " ++ e ++ "\n"], progress := [] }
    | none =>
      let tlshandler : Option TlsHandler :=
        if c.Tls = true then some (NewTlsHandler c.CaCert c.Cert c.Key) else none
      let ev₀ : List Event :=
        match tlshandler with
        | some h => [.newTlsHandler h]
        | none => []
      match selectSerializer c.Output with
      | none =>
        { outcome := .fatal "Failed parsing parameter flag: can only be resp or json",
          events := ev₀, stdout := [], stderr := [], progress := [] }
      | some serializer =>
        let redisPassword := env.auth
        let deferred : List String := if !c.Silent then ["\n"] else []
        let args : DumpArgs :=
          { host := c.Host, port := c.Port, redisPassword := QueryEscape redisPassword,
            tlsHandler := tlshandler, filter := c.Filter, nWorkers := c.NWorkers,
            withTTL := c.WithTTL, batchSize := c.BatchSize, noscan := c.Noscan,
            serializer := serializer }
        let call : DumpCall :=
          if c.Db < 0 then .DumpServer args
          else
            let db : Nat := if c.Db ≠ -1 then toUint8 c.Db else 0
            .DumpDB db args
        let res := env.dump call
        let progress := consumer c.Silent newProgressLogger res.notifs
        let events := ev₀ ++ [.startConsumer, .dump call, .closeNotifs, .waitConsumer]
        match res.err with
        | some e =>
          { outcome := .exit 1, events := events, stdout := [], stderr := [e] ++ deferred,
            progress := progress }
        | none =>
          { outcome := .exit 0, events := events, stdout := [], stderr := deferred,
            progress := progress }

/-- The dump calls among the events of a run, in order. -/
def dumpCalls : List Event → List DumpCall
  | [] => []
  | .dump call :: rest => call :: dumpCalls rest
  | _ :: rest => dumpCalls rest

/-! ## Concrete environments -/

/-- The configuration `config.FromFlags` returns when no flag is given. -/
def defaultConfig : Config :=
  { Host := "127.0.0.1", Port := 6379, Db := -1, Filter := "*", Noscan := false,
    BatchSize := 1000, NWorkers := 10, WithTTL := true, Output := "resp", Silent := false,
    Tls := false, CaCert := "", Cert := "", Key := "", Help := false }

/-- A dump engine that sends no notification and returns `nil`. -/
def dumpOk : DumpCall → DumpResult :=
  fun _ => { notifs := [], err := none }

/-- A run with the default flags against a store that cannot be reached: the dump call
returns an error. -/
def envUnreachable : Env :=
  { c := defaultConfig, outBuf := "", err := none, auth := [],
    dump := fun _ => { notifs := [], err := some "dial tcp 127.0.0.1:6379: connection refused" } }

/-- A run with `-db 3 -output commands` and the credential `p@ss word`. -/
def envDb3 : Env :=
  { c := { defaultConfig with Db := 3, Output := "commands" }, outBuf := "", err := none,
    auth := [112, 64, 115, 115, 32, 119, 111, 114, 100], dump := dumpOk }

/-- A run with `-db 256`: the flag parses cleanly as a Go `int`. -/
def envDb256 : Env :=
  { c := { defaultConfig with Db := 256 }, outBuf := "", err := none, auth := [],
    dump := dumpOk }

/-- A run with `-output json`. -/
def envJson : Env :=
  { c := { defaultConfig with Output := "json" }, outBuf := "", err := none, auth := [],
    dump := dumpOk }

/-- A run with `-h -bogus`: the help flag is set, then parsing fails on the unknown flag;
the parse error and the usage text are in the output buffer, the error is returned. -/
def envHelpBadFlag : Env :=
  { c := { defaultConfig with Help := true },
    outBuf := "flag provided but not defined: -bogus\nUsage: redis-dump-go [OPTION]...\n",
    err := some "flag provided but not defined: -bogus", auth := [], dump := dumpOk }

/-- A run with `-bogus`: parsing fails on the unknown flag; the parse error and the usage
text are in the output buffer, the error is returned, the help flag is not set. -/
def envBadFlag : Env :=
  { c := defaultConfig,
    outBuf := "flag provided but not defined: -bogus\nUsage: redis-dump-go [OPTION]...\n",
    err := some "flag provided but not defined: -bogus", auth := [], dump := dumpOk }

/-! ## Lemmas on the map and on the formatted text -/

theorem lookup_mapSet_self (s : List (Nat × Int)) (k : Nat) (v : Int) :
    (mapSet s k v).lookup k = some v := by
  induction s with
  | nil => simp [mapSet, List.lookup]
  | cons hd tl ih =>
    obtain ⟨k', v'⟩ := hd
    by_cases h : k' = k
    · simp [mapSet, h, List.lookup]
    · have h' : (k == k') = false := by simpa using fun e : k = k' => h e.symm
      simp [mapSet, h, List.lookup, h', ih]

theorem lookup_mapSet_ne (s : List (Nat × Int)) (k d : Nat) (v : Int) (hd : d ≠ k) :
    (mapSet s k v).lookup d = s.lookup d := by
  induction s with
  | nil =>
    have h' : (d == k) = false := by simpa using hd
    simp [mapSet, List.lookup, h']
  | cons hd' tl ih =>
    obtain ⟨k', v'⟩ := hd'
    by_cases h : k' = k
    · subst h
      have h' : (d == k') = false := by simpa using hd
      simp [mapSet, List.lookup, h']
    · by_cases h2 : d = k'
      · subst h2
        simp [mapSet, h, List.lookup]
      · have h' : (d == k') = false := by simpa using h2
        simp [mapSet, h, List.lookup, h', ih]

theorem mapSet_ne_nil (s : List (Nat × Int)) (k : Nat) (v : Int) : mapSet s k v ≠ [] := by
  cases s with
  | nil => simp [mapSet]
  | cons hd tl =>
    obtain ⟨k', v'⟩ := hd
    by_cases h : k' = k <;> simp [mapSet, h]

theorem lookup_mapSet_isNone (s : List (Nat × Int)) (k d : Nat) (v : Int) :
    ((mapSet s k v).lookup d).isNone = true ↔ d ≠ k ∧ (s.lookup d).isNone = true := by
  by_cases h : d = k
  · subst h
    simp [lookup_mapSet_self]
  · simp [lookup_mapSet_ne s k d v h, h]

theorem digitChar_ne_newline (d : Nat) : Nat.digitChar d ≠ Char.ofNat 10 := by
  by_cases h : d < 16
  · interval_cases d <;> decide
  · have e : Nat.digitChar d = Char.ofNat 42 := by
      unfold Nat.digitChar
      iterate 16 rw [if_neg (by omega)]
    rw [e]; decide

theorem toDigitsCore_no_newline (f : Nat) :
    ∀ (n : Nat) (acc : List Char), (∀ c ∈ acc, c ≠ Char.ofNat 10) →
      ∀ c ∈ Nat.toDigitsCore 10 f n acc, c ≠ Char.ofNat 10 := by
  induction f with
  | zero => intro n acc h; simpa [Nat.toDigitsCore] using h
  | succ f ih =>
    intro n acc h
    have hcons : ∀ c ∈ Nat.digitChar (n % 10) :: acc, c ≠ Char.ofNat 10 := by
      intro c hc
      rcases List.mem_cons.1 hc with rfl | hc
      · exact digitChar_ne_newline _
      · exact h c hc
    simp only [Nat.toDigitsCore]
    split
    · exact hcons
    · exact ih _ _ hcons

theorem natText_no_newline (n : Nat) : ∀ c ∈ (toString n).data, c ≠ Char.ofNat 10 := by
  show ∀ c ∈ (Nat.repr n).data, _
  simp only [Nat.repr, Nat.toDigits, List.asString]
  exact toDigitsCore_no_newline _ _ _ (by simp)

theorem intText_no_newline (n : Int) : ∀ c ∈ (toString n).data, c ≠ Char.ofNat 10 := by
  cases n with
  | ofNat m => exact natText_no_newline m
  | negSucc m =>
    show ∀ c ∈ ("-" ++ toString (Nat.succ m)).data, _
    intro c hc
    rw [String.data_append] at hc
    rcases List.mem_append.1 hc with h | h
    · simp at h; subst h; decide
    · exact natText_no_newline _ c h

theorem statusLine_data (db : Nat) (n : Int) :
    (statusLine db n).data =
      "\rDatabase ".data ++ (toString db).data ++ ": ".data ++ (toString n).data
        ++ " element dumped".data := by
  simp [statusLine, String.data_append]

theorem statusLine_no_newline (db : Nat) (n : Int) :
    (statusLine db n).data.count (Char.ofNat 10) = 0 := by
  rw [List.count_eq_zero, statusLine_data]
  intro hmem
  simp only [List.mem_append] at hmem
  rcases hmem with (((h | h) | h) | h) | h
  · revert h; decide
  · exact natText_no_newline db _ h rfl
  · revert h; decide
  · exact intText_no_newline n _ h rfl
  · revert h; decide

theorem statusLine_ne_newline (db : Nat) (n : Int) : statusLine db n ≠ "\n" := by
  intro h
  have h0 := statusLine_no_newline db n
  rw [h] at h0
  revert h0
  decide

theorem statusLine_last (db : Nat) (n : Int) :
    (statusLine db n).data.getLast? = some (Char.ofNat 100) := by
  rw [statusLine_data]
  rw [List.getLast?_append_of_ne_nil _ (by decide)]
  decide

/-! ## The progress renderer: what one call writes -/

theorem newlineCount_append (a b : List String) :
    newlineCount (a ++ b) = newlineCount a + newlineCount b := by
  simp [newlineCount, List.map_append, List.sum_append]

theorem drawProgress_stats (p : progressLogger) (db : Nat) (n : Int) :
    (p.drawProgress db n).1.stats = mapSet p.stats db n := by
  unfold progressLogger.drawProgress
  by_cases h : n = 0 <;> simp [h]

theorem drawProgress_chunks (p : progressLogger) (db : Nat) (n : Int) :
    (p.drawProgress db n).2 =
      (if (p.stats.lookup db).isNone = true ∧ p.stats.length > 0 then ["\n"] else [])
        ++ (if n = 0 then [] else [statusLine db n]) := by
  unfold progressLogger.drawProgress
  by_cases h : n = 0
  · rw [if_pos h, if_pos h, List.append_nil]
  · rw [if_neg h, if_neg h]

theorem drawProgress_head (p : progressLogger) (db : Nat) (n : Int) :
    (p.drawProgress db n).2.head? = some "\n" ↔
      (p.stats.lookup db).isNone = true ∧ p.stats ≠ [] := by
  have hlen : p.stats.length > 0 ↔ p.stats ≠ [] := List.length_pos
  have hne : ¬ (statusLine db n = "\n") := statusLine_ne_newline db n
  rw [drawProgress_chunks, ← hlen]
  by_cases hc : (p.stats.lookup db).isNone = true ∧ p.stats.length > 0
  · rw [if_pos hc]
    exact ⟨fun _ => hc, fun _ => rfl⟩
  · rw [if_neg hc, List.nil_append]
    by_cases h : n = 0
    · rw [if_pos h]
      exact ⟨fun e => Option.noConfusion e, fun e => absurd e hc⟩
    · rw [if_neg h]
      exact ⟨fun e => absurd (Option.some.inj e) hne, fun e => absurd e hc⟩

theorem drawProgress_newlineCount (p : progressLogger) (db : Nat) (n : Int) :
    newlineCount (p.drawProgress db n).2 =
      if (p.stats.lookup db).isNone = true ∧ p.stats ≠ [] then 1 else 0 := by
  have hlen : p.stats.length > 0 ↔ p.stats ≠ [] := List.length_pos
  have hnl : newlineCount ["\n"] = 1 := by decide
  have hnil : newlineCount [] = 0 := by decide
  have hline : newlineCount [statusLine db n] = 0 := by
    simp [newlineCount, statusLine_no_newline]
  have hsnd : newlineCount (if n = 0 then [] else [statusLine db n]) = 0 := by
    by_cases h : n = 0
    · rw [if_pos h]; exact hnil
    · rw [if_neg h]; exact hline
  rw [drawProgress_chunks, newlineCount_append, hsnd, Nat.add_zero]
  by_cases hc : (p.stats.lookup db).isNone = true ∧ p.stats.length > 0
  · rw [if_pos hc, if_pos (And.intro hc.1 (hlen.1 hc.2))]; exact hnl
  · rw [if_neg hc, if_neg (fun e => hc (And.intro e.1 (hlen.2 e.2)))]; exact hnil

/-- C7: for every logger state, database index and count, `drawProgress` records the count
as the latest count of that database and leaves the counts of all other databases as they
were; when the count is not zero the last chunk written is exactly carriage return,
`Database <db>: <n> element dumped`, a text that contains no newline and ends in the letter
`d`; when the count is zero the call writes nothing, or only the newline of a database
switch, and so no status line. -/
theorem drawProgress_records_and_prints (p : progressLogger) (db : Nat) (n : Int) :
    (p.drawProgress db n).1.stats.lookup db = some n ∧
    (∀ d, d ≠ db → (p.drawProgress db n).1.stats.lookup d = p.stats.lookup d) ∧
    (n ≠ 0 →
      (p.drawProgress db n).2.getLast? =
          some ("\rDatabase " ++ toString db ++ ": " ++ toString n ++ " element dumped") ∧
        ("\rDatabase " ++ toString db ++ ": " ++ toString n ++ " element dumped").data.count
            (Char.ofNat 10) = 0 ∧
        ("\rDatabase " ++ toString db ++ ": " ++ toString n
            ++ " element dumped").data.getLast? = some (Char.ofNat 100)) ∧
    (n = 0 → (p.drawProgress db n).2 = [] ∨ (p.drawProgress db n).2 = ["\n"]) := by
  refine ⟨?_, ?_, ?_, ?_⟩
  · rw [drawProgress_stats]; exact lookup_mapSet_self _ _ _
  · intro d hd
    rw [drawProgress_stats]; exact lookup_mapSet_ne _ _ _ _ hd
  · intro hn
    refine ⟨?_, statusLine_no_newline db n, statusLine_last db n⟩
    show _ = some (statusLine db n)
    rw [drawProgress_chunks, if_neg hn]
    exact List.getLast?_concat _
  · intro hn
    rw [drawProgress_chunks, if_pos hn, List.append_nil]
    by_cases hc : (p.stats.lookup db).isNone = true ∧ p.stats.length > 0
    · right; rw [if_pos hc]
    · left; rw [if_neg hc]

/-- Witness of C7: on a logger that has seen database 0, drawing count 5 for database 1
records 5 for database 1, keeps the count of database 0, and ends with the status line. -/
theorem drawProgress_records_and_prints_witness :
    (({ stats := [(0, 3)] } : progressLogger).drawProgress 1 5).1.stats.lookup 0 = some 3 ∧
    (({ stats := [(0, 3)] } : progressLogger).drawProgress 1 5).2.getLast? =
      some "\rDatabase 1: 5 element dumped" ∧
    ((({ stats := [(0, 3)] } : progressLogger).drawProgress 1 0).2 = [] ∨
      (({ stats := [(0, 3)] } : progressLogger).drawProgress 1 0).2 = ["\n"]) :=
  ⟨((drawProgress_records_and_prints { stats := [(0, 3)] } 1 5).2.1 0 (by decide)).trans
      (by decide),
    ((drawProgress_records_and_prints { stats := [(0, 3)] } 1 5).2.2.1 (by decide)).1.trans
      (by decide),
    (drawProgress_records_and_prints { stats := [(0, 3)] } 1 0).2.2.2 rfl⟩

/-! ## The progress renderer: a sequence of notifications -/

theorem drawEach_getElem (ns : List ProgressNotification) :
    ∀ (p : progressLogger) (i : Nat) (n : ProgressNotification), ns[i]? = some n →
      ∃ w, (drawEach p ns)[i]? = some w ∧
        (w.head? = some "\n" ↔
          (p.stats ≠ [] ∨ 0 < i) ∧ (p.stats.lookup n.Db).isNone = true ∧
            n.Db ∉ (ns.take i).map ProgressNotification.Db) := by
  induction ns with
  | nil => intro p i n h; simp at h
  | cons m rest ih =>
    intro p i n h
    cases i with
    | zero =>
      have hm : m = n := by simpa using h
      subst hm
      refine ⟨(p.drawProgress m.Db m.Done).2, by simp [drawEach], ?_⟩
      rw [drawProgress_head]
      constructor
      · rintro ⟨h1, h2⟩
        exact ⟨Or.inl h2, h1, by simp⟩
      · rintro ⟨h1, h2, _⟩
        rcases h1 with h1 | h1
        · exact ⟨h2, h1⟩
        · exact absurd h1 (Nat.lt_irrefl 0)
    | succ j =>
      have hj : rest[j]? = some n := by simpa using h
      obtain ⟨w, hw, hiff⟩ := ih (p.drawProgress m.Db m.Done).1 j n hj
      refine ⟨w, by simpa [drawEach] using hw, ?_⟩
      rw [hiff, drawProgress_stats, lookup_mapSet_isNone]
      have hne := mapSet_ne_nil p.stats m.Db m.Done
      constructor
      · rintro ⟨_, ⟨h1, h2⟩, h3⟩
        refine ⟨Or.inr (Nat.succ_pos j), h2, ?_⟩
        simp only [List.take_succ_cons, List.map_cons, List.mem_cons, not_or]
        exact ⟨h1, h3⟩
      · rintro ⟨_, h2, h3⟩
        simp only [List.take_succ_cons, List.map_cons, List.mem_cons, not_or] at h3
        exact ⟨Or.inl hne, ⟨h3.1, h2⟩, h3.2⟩

/-- What the guard of `drawProgress` does on a fresh logger: the handling of the notification
at position `i` starts by writing a newline exactly when `i` is not the first position and
the database of that notification occurs in no earlier notification. -/
theorem drawEach_newline_iff (ns : List ProgressNotification) (i : Nat)
    (n : ProgressNotification) (h : ns[i]? = some n) :
    ∃ w, (drawEach newProgressLogger ns)[i]? = some w ∧
      (w.head? = some "\n" ↔
        0 < i ∧ n.Db ∉ (ns.take i).map ProgressNotification.Db) := by
  obtain ⟨w, hw, hiff⟩ := drawEach_getElem ns newProgressLogger i n h
  refine ⟨w, hw, ?_⟩
  rw [hiff]
  constructor
  · rintro ⟨h1, _, h3⟩
    rcases h1 with h1 | h1
    · exact absurd rfl h1
    · exact ⟨h1, h3⟩
  · rintro ⟨h1, h3⟩
    exact ⟨Or.inr h1, rfl, h3⟩

/-- C6, the code at the failing input: on a fresh logger, with databases 0, 1, 0 in this
order, the third notification has another database than the one just before it (0 after 1),
yet its handling writes no newline: the only chunk it writes is its status line, while the
second notification, the first of database 1, does get its newline. -/
theorem drawProgress_switch_back_no_newline :
    (⟨0, 2⟩ : ProgressNotification).Db ≠ (⟨1, 1⟩ : ProgressNotification).Db ∧
    drawEach newProgressLogger [⟨0, 1⟩, ⟨1, 1⟩, ⟨0, 2⟩] =
      [["\rDatabase 0: 1 element dumped"],
       ["\n", "\rDatabase 1: 1 element dumped"],
       ["\rDatabase 0: 2 element dumped"]] := by
  decide

theorem drawEach_newlineCount (ns : List ProgressNotification) :
    ∀ p : progressLogger, p.stats ≠ [] →
      newlineCount (drawEach p ns).flatten =
        ((ns.map ProgressNotification.Db).toFinset.filter
          (fun d => (p.stats.lookup d).isNone = true)).card := by
  induction ns with
  | nil => intro p _; simp [drawEach, newlineCount]
  | cons m rest ih =>
    intro p hp
    have hne := mapSet_ne_nil p.stats m.Db m.Done
    have hstep := ih (p.drawProgress m.Db m.Done).1 (by rw [drawProgress_stats]; exact hne)
    have hfilter :
        (rest.map ProgressNotification.Db).toFinset.filter
            (fun d => ((p.drawProgress m.Db m.Done).1.stats.lookup d).isNone = true) =
          ((rest.map ProgressNotification.Db).toFinset.filter
            (fun d => (p.stats.lookup d).isNone = true)).erase m.Db := by
      ext d
      simp only [Finset.mem_filter, Finset.mem_erase, drawProgress_stats,
        lookup_mapSet_isNone]
      tauto
    rw [hfilter] at hstep
    show newlineCount ((p.drawProgress m.Db m.Done).2
      ++ (drawEach (p.drawProgress m.Db m.Done).1 rest).flatten) = _
    rw [newlineCount_append, drawProgress_newlineCount, hstep, List.map_cons,
      List.toFinset_cons, Finset.filter_insert]
    by_cases hm : (p.stats.lookup m.Db).isNone = true
    · rw [if_pos (And.intro hm hp), if_pos hm]
      by_cases hmem : m.Db ∈ (rest.map ProgressNotification.Db).toFinset.filter
          (fun d => (p.stats.lookup d).isNone = true)
      · rw [Finset.insert_eq_of_mem hmem, Finset.card_erase_of_mem hmem]
        have := Finset.card_pos.2 ⟨_, hmem⟩
        omega
      · rw [Finset.erase_eq_of_not_mem hmem, Finset.card_insert_of_not_mem hmem]
        omega
    · rw [if_neg (fun e => hm e.1), if_neg hm, Nat.zero_add]
      congr 1
      apply Finset.erase_eq_of_not_mem
      simp only [Finset.mem_filter, not_and]
      intro _ e
      exact hm e

/-- C10: for every finite sequence of notifications drawn on a fresh logger, counts of zero
included, the number of newline characters written in total is the number of distinct
database indices of the sequence minus one, and zero for the empty sequence. -/
theorem drawProgress_total_newlines (ns : List ProgressNotification) :
    newlineCount (drawEach newProgressLogger ns).flatten =
      (ns.map ProgressNotification.Db).dedup.length - 1 := by
  cases ns with
  | nil => decide
  | cons m rest =>
    have hne := mapSet_ne_nil newProgressLogger.stats m.Db m.Done
    have hstep := drawEach_newlineCount rest (newProgressLogger.drawProgress m.Db m.Done).1
      (by rw [drawProgress_stats]; exact hne)
    have hfirst : newlineCount (newProgressLogger.drawProgress m.Db m.Done).2 = 0 := by
      rw [drawProgress_newlineCount, if_neg]
      exact fun e => e.2 rfl
    have hfilter :
        (rest.map ProgressNotification.Db).toFinset.filter
            (fun d => ((newProgressLogger.drawProgress m.Db m.Done).1.stats.lookup d).isNone
              = true) =
          (insert m.Db (rest.map ProgressNotification.Db).toFinset).erase m.Db := by
      ext d
      simp only [Finset.mem_filter, Finset.mem_erase, Finset.mem_insert, drawProgress_stats,
        lookup_mapSet_isNone]
      constructor
      · rintro ⟨h1, h2, _⟩
        exact ⟨h2, Or.inr h1⟩
      · rintro ⟨h1, h2⟩
        rcases h2 with h2 | h2
        · exact absurd h2 h1
        · exact ⟨h2, h1, rfl⟩
    rw [hfilter] at hstep
    show newlineCount ((newProgressLogger.drawProgress m.Db m.Done).2
      ++ (drawEach (newProgressLogger.drawProgress m.Db m.Done).1 rest).flatten) = _
    rw [newlineCount_append, hfirst, hstep, Nat.zero_add,
      Finset.card_erase_of_mem (Finset.mem_insert_self _ _), ← List.card_toFinset,
      List.map_cons, List.toFinset_cons]

/-! ## `url.QueryEscape` -/

theorem escapeByte_length (c : Nat) : 1 ≤ (escapeByte c).length := by
  unfold escapeByte
  split
  · simp
  · split <;> simp

theorem QueryEscape_length (s : List Nat) : s.length ≤ (QueryEscape s).length := by
  induction s with
  | nil => simp [QueryEscape]
  | cons c t ih =>
    have := escapeByte_length c
    simp only [QueryEscape, List.length_append, List.length_cons]
    omega

theorem QueryEscape_fixed (s : List Nat) :
    QueryEscape s = s → ∀ b ∈ s, shouldEscape b = false := by
  induction s with
  | nil => intro _ b hb; simp at hb
  | cons c t ih =>
    intro h b hb
    have hlen := QueryEscape_length t
    unfold QueryEscape escapeByte at h
    by_cases h32 : c = 32
    · rw [if_pos h32] at h
      have := (List.cons.inj h).1
      omega
    · rw [if_neg h32] at h
      by_cases hesc : shouldEscape c = true
      · rw [if_pos hesc] at h
        have h2 := congrArg List.length h
        simp only [List.cons_append, List.nil_append, List.length_cons] at h2
        omega
      · rw [if_neg hesc] at h
        have ht : QueryEscape t = t := (List.cons.inj h).2
        rcases List.mem_cons.1 hb with rfl | hb
        · simpa using hesc
        · exact ih ht b hb

/-! ## The entry point -/

theorem dumpCalls_tail (ev₀ : List Event) (call : DumpCall)
    (h : ∀ e ∈ ev₀, ∃ t, e = Event.newTlsHandler t) :
    dumpCalls (ev₀ ++ [.startConsumer, .dump call, .closeNotifs, .waitConsumer]) = [call] := by
  induction ev₀ with
  | nil => rfl
  | cons e rest ih =>
    obtain ⟨t, rfl⟩ := h e (List.mem_cons_self _ _)
    exact ih fun e he => h e (List.mem_cons_of_mem _ he)

theorem dumpCalls_tls (ev₀ : List Event) (h : ∀ e ∈ ev₀, ∃ t, e = Event.newTlsHandler t) :
    dumpCalls ev₀ = [] ∧ Event.startConsumer ∉ ev₀ := by
  induction ev₀ with
  | nil => exact ⟨rfl, by simp⟩
  | cons e rest ih =>
    obtain ⟨t, rfl⟩ := h e (List.mem_cons_self _ _)
    have := ih fun e he => h e (List.mem_cons_of_mem _ he)
    exact ⟨this.1, by simpa using this.2⟩

/-- The run of `realMain` on flags that parse cleanly and select a serializer. -/
theorem realMain_valid (env : Env) (hout : env.outBuf = "") (herr : env.err = none)
    (ser : Serializer) (hser : selectSerializer env.c.Output = some ser) :
    ∃ call, dumpCalls (realMain env).events = [call] ∧
      call.args.serializer = ser ∧
      call.args.redisPassword = QueryEscape env.auth ∧
      (env.c.Db < 0 → call = .DumpServer call.args) ∧
      (0 ≤ env.c.Db → call = .DumpDB (toUint8 env.c.Db) call.args) ∧
      ((env.dump call).err = none → (realMain env).outcome = .exit 0) ∧
      (∀ e, (env.dump call).err = some e →
        (realMain env).outcome = .exit 1 ∧ e ∈ (realMain env).stderr) := by
  unfold realMain
  simp only [hout, herr, hser, ne_eq, not_true_eq_false, if_false]
  by_cases hdb : env.c.Db < 0
  · simp only [hdb, if_true]
    generalize hcall : DumpCall.DumpServer _ = call
    have hargs : call.args.serializer = ser ∧ call.args.redisPassword = QueryEscape env.auth ∧
        call = .DumpServer call.args := by
      subst hcall; exact ⟨rfl, rfl, rfl⟩
    refine ⟨call, ?_, hargs.1, hargs.2.1, fun _ => hargs.2.2,
      fun h => absurd hdb (not_lt.2 h), ?_, ?_⟩
    · cases (env.dump call).err <;> by_cases ht : env.c.Tls = true <;>
        simp only [ht, if_true, if_false] <;> rfl
    · intro h0; rw [h0]
    · intro e he; rw [he]
      exact ⟨rfl, List.mem_append_left _ (List.mem_singleton_self e)⟩
  · have hne : env.c.Db ≠ -1 := by omega
    simp only [hdb, if_false, hne, ne_eq, not_false_eq_true, if_true]
    generalize hcall : DumpCall.DumpDB _ _ = call
    have hargs : call.args.serializer = ser ∧ call.args.redisPassword = QueryEscape env.auth ∧
        call = .DumpDB (toUint8 env.c.Db) call.args := by
      subst hcall; exact ⟨rfl, rfl, rfl⟩
    refine ⟨call, ?_, hargs.1, hargs.2.1, fun h => h.elim, fun _ => hargs.2.2, ?_, ?_⟩
    · cases (env.dump call).err <;> by_cases ht : env.c.Tls = true <;>
        simp only [ht, if_true, if_false] <;> rfl
    · intro h0; rw [h0]
    · intro e he; rw [he]
      exact ⟨rfl, List.mem_append_left _ (List.mem_singleton_self e)⟩

theorem selectSerializer_valid (output : String)
    (h : output = "resp" ∨ output = "commands") :
    ∃ ser, selectSerializer output = some ser ∧
      (ser = Serializer.RESPSerializer ↔ output = "resp") ∧
      (ser = Serializer.RedisCmdSerializer ↔ output = "commands") := by
  rcases h with h | h
  · subst h
    exact ⟨.RESPSerializer, by decide, by decide, by decide⟩
  · subst h
    exact ⟨.RedisCmdSerializer, by decide, by decide, by decide⟩

theorem selectSerializer_invalid (output : String)
    (h : output ≠ "resp" ∧ output ≠ "commands") : selectSerializer output = none := by
  unfold selectSerializer
  rw [if_neg h.1, if_neg h.2]

/-- C1: for every configuration that parses cleanly (empty usage output, nil error) and has
output format `resp` or `commands`, `realMain` makes one dump call, returns exit code 0
exactly when that call returns no error, and when the call returns an error it returns 1 and
writes the message of that error to standard error. -/
theorem realMain_exit_code (env : Env) (hout : env.outBuf = "") (herr : env.err = none)
    (hfmt : env.c.Output = "resp" ∨ env.c.Output = "commands") :
    ∃ call, dumpCalls (realMain env).events = [call] ∧
      ((realMain env).outcome = .exit 0 ↔ (env.dump call).err = none) ∧
      (∀ e, (env.dump call).err = some e →
        (realMain env).outcome = .exit 1 ∧ e ∈ (realMain env).stderr) := by
  obtain ⟨ser, hser, _, _⟩ := selectSerializer_valid env.c.Output hfmt
  obtain ⟨call, hcalls, _, _, _, _, hok, hfail⟩ := realMain_valid env hout herr ser hser
  refine ⟨call, hcalls, ⟨?_, hok⟩, hfail⟩
  intro h0
  cases hres : (env.dump call).err with
  | none => rfl
  | some e =>
    have h1 := (hfail e hres).1
    rw [h1] at h0
    exact absurd h0 (by decide)

/-- Witness of C1: against a store that cannot be reached, the one dump call fails, the
exit code is 1 and the message of the error is written to standard error. -/
theorem realMain_exit_code_witness :
    (realMain envUnreachable).outcome = .exit 1 ∧
      "dial tcp 127.0.0.1:6379: connection refused" ∈ (realMain envUnreachable).stderr := by
  obtain ⟨call, _, _, hfail⟩ := realMain_exit_code envUnreachable rfl rfl (Or.inl rfl)
  exact hfail _ rfl

/-- Counterexample to C2 as stated: on the arguments `-h -bogus` the flag parser returns a
non-nil error together with usage output and the help flag set, and `realMain` returns exit
code 0, not 1. -/
theorem realMain_malformed_counterexample :
    envHelpBadFlag.err ≠ none ∧ (realMain envHelpBadFlag).outcome = .exit 0 ∧
      (realMain envHelpBadFlag).outcome ≠ .exit 1 := by
  decide

/-- C2, amended: for every argument list on which `config.FromFlags` returns a non-nil
error, `realMain` invokes neither `DumpDB` nor `DumpServer`, and it returns exit code 1
unless the parser also returned usage output with the help flag set, in which case it writes
that output, followed by a newline, to standard output and returns exit code 0. -/
theorem realMain_malformed (env : Env) (herr : env.err ≠ none) :
    dumpCalls (realMain env).events = [] ∧
      (realMain env).outcome =
        .exit (if env.outBuf ≠ "" ∧ env.c.Help = true then 0 else 1) ∧
      (env.outBuf ≠ "" ∧ env.c.Help = true →
        (realMain env).stdout = [env.outBuf ++ "\n"]) := by
  by_cases hout : env.outBuf = ""
  · cases he : env.err with
    | none => exact absurd he herr
    | some e =>
      have h1 : (realMain env).events = [] ∧ (realMain env).outcome = .exit 1 := by
        simp [realMain, hout, he]
      rw [h1.1, h1.2, if_neg (fun e => e.1 hout)]
      exact ⟨rfl, rfl, fun e => absurd hout e.1⟩
  · by_cases hh : env.c.Help = true
    · have h1 : (realMain env).events = [] ∧ (realMain env).outcome = .exit 0 ∧
          (realMain env).stdout = [env.outBuf ++ "\n"] := by
        simp [realMain, hout, hh]
      rw [h1.1, h1.2.1, if_pos (And.intro hout hh)]
      exact ⟨rfl, rfl, fun _ => h1.2.2⟩
    · have h1 : (realMain env).events = [] ∧ (realMain env).outcome = .exit 1 := by
        simp [realMain, hout, hh]
      rw [h1.1, h1.2, if_neg (fun e => hh e.2)]
      exact ⟨rfl, rfl, fun e => absurd e.2 hh⟩

/-- Witness of C2, amended: with `-bogus` the parse error gives exit code 1 and no dump call;
with `-h -bogus` it gives exit code 0, no dump call, and the usage text on standard output. -/
theorem realMain_malformed_witness :
    (dumpCalls (realMain envBadFlag).events = [] ∧
      (realMain envBadFlag).outcome = .exit 1) ∧
    (dumpCalls (realMain envHelpBadFlag).events = [] ∧
      (realMain envHelpBadFlag).outcome = .exit 0 ∧
      (realMain envHelpBadFlag).stdout =
        ["flag provided but not defined: -bogus\nUsage: redis-dump-go [OPTION]...\n\n"]) :=
  ⟨⟨(realMain_malformed envBadFlag (by decide)).1,
      (realMain_malformed envBadFlag (by decide)).2.1.trans (by decide)⟩,
    ⟨(realMain_malformed envHelpBadFlag (by decide)).1,
      (realMain_malformed envHelpBadFlag (by decide)).2.1.trans (by decide),
      ((realMain_malformed envHelpBadFlag (by decide)).2.2 (by decide)).trans (by decide)⟩⟩

/-- C3: for every configuration that parses cleanly and whose output format is neither
`resp` nor `commands`, `realMain` ends in the fatal exit of the format check, having made no
call to `DumpDB` or `DumpServer` and not having started the progress consumer. -/
theorem realMain_bad_format (env : Env) (hout : env.outBuf = "") (herr : env.err = none)
    (hfmt : env.c.Output ≠ "resp" ∧ env.c.Output ≠ "commands") :
    (∃ msg, (realMain env).outcome = .fatal msg) ∧
      dumpCalls (realMain env).events = [] ∧
      Event.startConsumer ∉ (realMain env).events := by
  have hser := selectSerializer_invalid env.c.Output hfmt
  unfold realMain
  simp only [hout, herr, hser, ne_eq, not_true_eq_false, if_false]
  by_cases ht : env.c.Tls = true
  · simp only [ht, if_true]
    exact ⟨⟨_, rfl⟩, rfl, by simp⟩
  · simp only [ht, if_false]
    exact ⟨⟨_, rfl⟩, rfl, by simp⟩

/-- Witness of C3: with `-output json` the run is fatal, without dump call or consumer. -/
theorem realMain_bad_format_witness :
    (∃ msg, (realMain envJson).outcome = .fatal msg) ∧
      dumpCalls (realMain envJson).events = [] ∧
      Event.startConsumer ∉ (realMain envJson).events :=
  realMain_bad_format envJson rfl rfl (by decide)

/-- C4: for every valid configuration `realMain` makes exactly one dump call, which is
`DumpServer` when `c.Db` is negative and `DumpDB` when `c.Db` is not negative. -/
theorem realMain_one_dump_call (env : Env) (hout : env.outBuf = "") (herr : env.err = none)
    (hfmt : env.c.Output = "resp" ∨ env.c.Output = "commands") :
    (env.c.Db < 0 → ∃ args, dumpCalls (realMain env).events = [.DumpServer args]) ∧
      (0 ≤ env.c.Db → ∃ db args, dumpCalls (realMain env).events = [.DumpDB db args]) := by
  obtain ⟨ser, hser, _, _⟩ := selectSerializer_valid env.c.Output hfmt
  obtain ⟨call, hcalls, _, _, hneg, hpos, _, _⟩ := realMain_valid env hout herr ser hser
  constructor
  · intro h
    exact ⟨call.args, by rw [hcalls, ← hneg h]⟩
  · intro h
    exact ⟨toUint8 env.c.Db, call.args, by rw [hcalls, ← hpos h]⟩

/-- Witness of C4: with the default flags (`Db = -1`) the one dump call is `DumpServer`;
with `-db 3` it is `DumpDB`. -/
theorem realMain_one_dump_call_witness :
    (∃ args, dumpCalls (realMain envUnreachable).events = [.DumpServer args]) ∧
      (∃ db args, dumpCalls (realMain envDb3).events = [.DumpDB db args]) :=
  ⟨(realMain_one_dump_call envUnreachable rfl rfl (Or.inl rfl)).1 (by decide),
    (realMain_one_dump_call envDb3 rfl rfl (Or.inr rfl)).2 (by decide)⟩

/-- C5, the code at the failing input: with `-db 256` the configuration parses cleanly, no
fatal exit happens, and the one dump call is `DumpDB` for database index 0, which is not
256. -/
theorem realMain_db_256 :
    envDb256.outBuf = "" ∧ envDb256.err = none ∧ envDb256.c.Db = 256 ∧
      (realMain envDb256).outcome = .exit 0 ∧
      dumpCalls (realMain envDb256).events =
        [.DumpDB 0
          { host := "127.0.0.1", port := 6379, redisPassword := [], tlsHandler := none,
            filter := "*", nWorkers := 10, withTTL := true, batchSize := 1000,
            noscan := false, serializer := .RESPSerializer }] :=
  ⟨rfl, rfl, rfl, by decide, by decide⟩

/-- C8: for every valid configuration the serializer handed to the one dump call is
`RESPSerializer` exactly when the output format is `resp` and `RedisCmdSerializer` exactly
when it is `commands`, whichever of the two dump calls is made. -/
theorem realMain_serializer (env : Env) (hout : env.outBuf = "") (herr : env.err = none)
    (hfmt : env.c.Output = "resp" ∨ env.c.Output = "commands") :
    ∃ call, dumpCalls (realMain env).events = [call] ∧
      (call.args.serializer = .RESPSerializer ↔ env.c.Output = "resp") ∧
      (call.args.serializer = .RedisCmdSerializer ↔ env.c.Output = "commands") := by
  obtain ⟨ser, hser, h1, h2⟩ := selectSerializer_valid env.c.Output hfmt
  obtain ⟨call, hcalls, hs, _⟩ := realMain_valid env hout herr ser hser
  exact ⟨call, hcalls, by rw [hs]; exact h1, by rw [hs]; exact h2⟩

/-- Witness of C8: with `-db 3 -output commands` the call carries `RedisCmdSerializer`. -/
theorem realMain_serializer_witness :
    ∃ call, dumpCalls (realMain envDb3).events = [call] ∧
      (call.args.serializer = .RESPSerializer ↔ envDb3.c.Output = "resp") ∧
      (call.args.serializer = .RedisCmdSerializer ↔ envDb3.c.Output = "commands") :=
  realMain_serializer envDb3 rfl rfl (Or.inr rfl)

/-- C9: for every value of `REDISDUMPGO_AUTH` and every valid configuration, the credential
handed to the one dump call, `DumpServer` or `DumpDB`, is `url.QueryEscape` of that value;
an unset or empty variable gives the empty credential, and a value with a byte that
`QueryEscape` rewrites is never handed over raw. -/
theorem realMain_credential (env : Env) (hout : env.outBuf = "") (herr : env.err = none)
    (hfmt : env.c.Output = "resp" ∨ env.c.Output = "commands") :
    ∃ call, dumpCalls (realMain env).events = [call] ∧
      call.args.redisPassword = QueryEscape env.auth ∧
      (env.auth = [] → call.args.redisPassword = []) ∧
      ((∃ b ∈ env.auth, shouldEscape b = true) → call.args.redisPassword ≠ env.auth) := by
  obtain ⟨ser, hser, _, _⟩ := selectSerializer_valid env.c.Output hfmt
  obtain ⟨call, hcalls, _, hpw, _⟩ := realMain_valid env hout herr ser hser
  refine ⟨call, hcalls, hpw, ?_, ?_⟩
  · intro h
    rw [hpw, h]
    rfl
  · rintro ⟨b, hb, hesc⟩ heq
    rw [hpw] at heq
    have := QueryEscape_fixed env.auth heq b hb
    rw [this] at hesc
    exact absurd hesc (by decide)

/-- Witness of C9: the credential `p@ss word` reaches `DumpDB` as `p%40ss+word`. -/
theorem realMain_credential_witness :
    ∃ call, dumpCalls (realMain envDb3).events = [call] ∧
      call.args.redisPassword =
        [112, 37, 52, 48, 115, 115, 43, 119, 111, 114, 100] := by
  obtain ⟨call, hcalls, hpw, _, _⟩ := realMain_credential envDb3 rfl rfl (Or.inr rfl)
  exact ⟨call, hcalls, hpw.trans (by decide)⟩

end RedisDumpGo
